import Mathlib

/-!
Verification of the leader-tracking and quorum-decision core of the
omnipaxos repository (`src/omnipaxos/src/util.rs` and
`src/omnipaxos/src/utils/vec_like.rs`).

The Rust code is shallowly embedded: `nohash_hasher::IntMap` (and the
`HashMap` inside `VecLike`) are modelled as association lists with
key-replacing insertion, `usize`/`u64` as `Nat`, mutation as explicit
state passing, and panics as `Option` results (`none` = panic).
The `Ballot` type and the `Promise` message live outside the given
sources and are modelled from the spec.
-/

/-- NodeId: unsigned integer identifying a cluster member (`pub type NodeId = u64`). -/
abbrev NodeId := Nat

/-- Association-list model of an integer-keyed map: insertion replaces the
value of an existing key and otherwise appends the binding. -/
def mapInsert {α : Type} (k : Nat) (v : α) : List (Nat × α) → List (Nat × α)
  | [] => [(k, v)]
  | (k2, v2) :: rest => if k = k2 then (k, v) :: rest else (k2, v2) :: mapInsert k v rest

/-- Lookup in the association-list map model. -/
def mapLookup {α : Type} (k : Nat) : List (Nat × α) → Option α
  | [] => none
  | (k2, v2) :: rest => if k = k2 then some v2 else mapLookup k rest

/-- Values of the association-list map model (the map's `values()` iterator). -/
def mapValues {α : Type} (m : List (Nat × α)) : List α := m.map Prod.snd

/-- Type alias for a map from NodeId to a value of type T (`pub type NodeMap<T> = IntMap<NodeId, T>`). -/
abbrev NodeMap (α : Type) := List (Nat × α)

/-- Modelled from the spec: `Ballot` is external to the given sources
("consumed as an opaque totally-ordered value: round number, tie-break
node id"); `n` is the round number and `pid` the tie-breaking node id. -/
structure Ballot where
  n : Nat
  pid : Nat
deriving DecidableEq

/-- Modelled from the spec: Ballot comparison is "first by round, then by a
tie-breaking node identifier", i.e. lexicographic on `(n, pid)`. -/
def Ballot.lt (a b : Ballot) : Prop := a.n < b.n ∨ (a.n = b.n ∧ a.pid < b.pid)

instance Ballot.decLt (a b : Ballot) : Decidable (Ballot.lt a b) :=
  inferInstanceAs (Decidable (a.n < b.n ∨ (a.n = b.n ∧ a.pid < b.pid)))

/-- Default `Ballot` (all fields zero), as produced by `Ballot::default()`. -/
def Ballot.default0 : Ballot := { n := 0, pid := 0 }

/-- Promise without the log update (struct `PromiseMetaData` in util.rs). -/
structure PromiseMetaData where
  n_accepted : Ballot
  accepted_idx : Nat
  decided_idx : Nat
  pid : Nat
deriving DecidableEq

/-- Default `PromiseMetaData` as produced by `#[derive(Default)]`. -/
def PromiseMetaData.default0 : PromiseMetaData :=
  { n_accepted := Ballot.default0, accepted_idx := 0, decided_idx := 0, pid := 0 }

/-- The ordering from `impl PartialOrd for PromiseMetaData`: the Rust
`partial_cmp` always returns `Some(ordering)`, so we model the `Ordering`
it wraps directly. -/
def PromiseMetaData.cmp (a b : PromiseMetaData) : Ordering :=
  if a.n_accepted = b.n_accepted ∧ a.accepted_idx = b.accepted_idx ∧ a.pid = b.pid then
    Ordering.eq
  else if Ballot.lt b.n_accepted a.n_accepted ∨
      (a.n_accepted = b.n_accepted ∧ b.accepted_idx < a.accepted_idx) then
    Ordering.gt
  else
    Ordering.lt

/-- Strict "greater" of the `PartialOrd` impl: `a > b` holds when
`partial_cmp(a, b) == Some(Greater)`. -/
def PromiseMetaData.gt (a b : PromiseMetaData) : Prop :=
  PromiseMetaData.cmp a b = Ordering.gt

instance PromiseMetaData.decGt (a b : PromiseMetaData) : Decidable (PromiseMetaData.gt a b) :=
  inferInstanceAs (Decidable (_ = _))

/-- Equality from `impl PartialEq for PromiseMetaData`: `n_accepted`,
`accepted_idx` and `pid` must match (`decided_idx` is ignored). -/
def PromiseMetaData.eq (a b : PromiseMetaData) : Prop :=
  a.n_accepted = b.n_accepted ∧ a.accepted_idx = b.accepted_idx ∧ a.pid = b.pid

instance PromiseMetaData.decEq2 (a b : PromiseMetaData) : Decidable (PromiseMetaData.eq a b) :=
  inferInstanceAs (Decidable (_ ∧ _ ∧ _))

/-- The promise state of a node (enum `PromiseState` in util.rs). -/
inductive PromiseState where
  | NotPromised
  | Promised (meta : PromiseMetaData)
  | PromisedHigher
deriving DecidableEq

/-- Test used by `set_promise`'s quorum count:
`matches!(p, PromiseState::Promised(_))`. -/
def isPromised : PromiseState → Bool
  | PromiseState.Promised _ => true
  | _ => false

/-- Keeps track of the ordering of messages in the accept phase
(struct `SequenceNumber` in util.rs). -/
structure SequenceNumber where
  session : Nat
  counter : Nat
deriving DecidableEq

/-- Default `SequenceNumber` (session 0, counter 0). -/
def SequenceNumber.default0 : SequenceNumber := { session := 0, counter := 0 }

/-- Derived lexicographic `<=` on `SequenceNumber` (field order: session, counter). -/
def SequenceNumber.le (a b : SequenceNumber) : Prop :=
  a.session < b.session ∨ (a.session = b.session ∧ a.counter ≤ b.counter)

instance SequenceNumber.decLe (a b : SequenceNumber) : Decidable (SequenceNumber.le a b) :=
  inferInstanceAs (Decidable (_ ∨ _))

/-- Classification of an incoming message sequence number (enum `MessageStatus`). -/
inductive MessageStatus where
  | Expected
  | DroppedPreceding
  | Outdated
deriving DecidableEq

/-- Translation of `SequenceNumber::check_msg_status`. -/
def SequenceNumber.check_msg_status (sn : SequenceNumber) (msg_seq_num : SequenceNumber) :
    MessageStatus :=
  if msg_seq_num.session = sn.session ∧ msg_seq_num.counter = sn.counter + 1 then
    MessageStatus.Expected
  else if SequenceNumber.le msg_seq_num sn then
    MessageStatus.Outdated
  else
    MessageStatus.DroppedPreceding

/-- The flexible quorum configuration (struct `FlexibleQuorum`). -/
structure FlexibleQuorum where
  read_quorum_size : Nat
  write_quorum_size : Nat
deriving DecidableEq

/-- The type of quorum used by the OmniPaxos cluster (enum `Quorum`). -/
inductive Quorum where
  | Majority (majority : Nat)
  | Flexible (flex_quorum : FlexibleQuorum)
deriving DecidableEq

/-- Translation of `Quorum::with` (renamed: `with` is a Lean keyword). -/
def Quorum.make (flexible_quorum_config : Option FlexibleQuorum) (num_nodes : Nat) : Quorum :=
  match flexible_quorum_config with
  | some cfg => Quorum.Flexible cfg
  | none => Quorum.Majority (num_nodes / 2 + 1)

/-- Translation of `Quorum::is_prepare_quorum`. -/
def Quorum.is_prepare_quorum (q : Quorum) (num_nodes : Nat) : Bool :=
  match q with
  | Quorum.Majority majority => decide (majority ≤ num_nodes)
  | Quorum.Flexible flex_quorum => decide (flex_quorum.read_quorum_size ≤ num_nodes)

/-- Translation of `Quorum::is_accept_quorum`. -/
def Quorum.is_accept_quorum (q : Quorum) (num_nodes : Nat) : Bool :=
  match q with
  | Quorum.Majority majority => decide (majority ≤ num_nodes)
  | Quorum.Flexible flex_quorum => decide (flex_quorum.write_quorum_size ≤ num_nodes)

/-- Modelled from the spec: the network delivers `Promise<T>` messages
carrying "`n_accepted`, `accepted_idx`, `decided_idx`, `log_sync:
Option<LogSync<T>>`"; the type parameter `S` stands for `LogSync<T>`,
which `set_promise` only moves, never inspects. -/
structure Promise (S : Type) where
  n_accepted : Ballot
  accepted_idx : Nat
  decided_idx : Nat
  log_sync : Option S

/-- Translation of struct `LeaderState<T>`; the parameter `S` stands for the
`LogSync<T>` payload attached to the strongest promise. -/
structure LeaderState (S : Type) where
  n_leader : Ballot
  promises_meta : NodeMap PromiseState
  follower_seq_nums : NodeMap SequenceNumber
  accepted_indexes : NodeMap Nat
  max_promise_meta : PromiseMetaData
  max_promise_sync : Option S
  latest_accept_meta : NodeMap (Option (Ballot × Nat))
  quorum : Quorum

/-- Translation of `LeaderState::with` (renamed: `with` is a Lean keyword):
initializes every peer to `NotPromised`, default sequence number, accepted
index 0 and no in-flight accept. -/
def LeaderState.make {S : Type} (n_leader : Ballot) (peers : List NodeId) (quorum : Quorum) :
    LeaderState S :=
  { n_leader := n_leader
    promises_meta := peers.foldl (fun m peer => mapInsert peer PromiseState.NotPromised m) []
    follower_seq_nums := peers.foldl (fun m peer => mapInsert peer SequenceNumber.default0 m) []
    accepted_indexes := peers.foldl (fun m peer => mapInsert peer 0 m) []
    max_promise_meta := PromiseMetaData.default0
    max_promise_sync := none
    latest_accept_meta := peers.foldl (fun m peer => mapInsert peer none m) []
    quorum := quorum }

/-- Translation of `LeaderState::increment_seq_num_session`: only updates an
entry that is already present (`get_mut`). -/
def LeaderState.increment_seq_num_session {S : Type} (st : LeaderState S) (pid : NodeId) :
    LeaderState S :=
  match mapLookup pid st.follower_seq_nums with
  | some seq_num =>
      { st with follower_seq_nums :=
          mapInsert pid { session := seq_num.session + 1, counter := 0 } st.follower_seq_nums }
  | none => st

/-- Translation of `LeaderState::next_seq_num`: advances the counter of an
existing entry, and for an absent pid inserts and returns
`{ session := 0, counter := 1 }`. -/
def LeaderState.next_seq_num {S : Type} (st : LeaderState S) (pid : NodeId) :
    LeaderState S × SequenceNumber :=
  match mapLookup pid st.follower_seq_nums with
  | some seq_num =>
      let updated : SequenceNumber := { seq_num with counter := seq_num.counter + 1 }
      ({ st with follower_seq_nums := mapInsert pid updated st.follower_seq_nums }, updated)
  | none =>
      let new_seq : SequenceNumber := { session := 0, counter := 1 }
      ({ st with follower_seq_nums := mapInsert pid new_seq st.follower_seq_nums }, new_seq)

/-- Translation of `LeaderState::get_seq_num`: `unwrap_or_default()`. -/
def LeaderState.get_seq_num {S : Type} (st : LeaderState S) (pid : NodeId) : SequenceNumber :=
  (mapLookup pid st.follower_seq_nums).getD SequenceNumber.default0

/-- The `PromiseMetaData` that `set_promise` builds from an incoming promise. -/
def promiseMetaOf {S : Type} (prom : Promise S) (sender : NodeId) : PromiseMetaData :=
  { n_accepted := prom.n_accepted, accepted_idx := prom.accepted_idx,
    decided_idx := prom.decided_idx, pid := sender }

/-- Translation of `LeaderState::set_promise`: optionally adopts a new
maximum promise (with its log sync), records the sender as `Promised`, and
returns whether the count of `Promised` peers reaches the prepare quorum. -/
def LeaderState.set_promise {S : Type} (st : LeaderState S) (prom : Promise S) (sender : NodeId)
    (check_max_prom : Bool) : LeaderState S × Bool :=
  let promise_meta := promiseMetaOf prom sender
  let st1 :=
    if check_max_prom ∧ PromiseMetaData.gt promise_meta st.max_promise_meta then
      { st with max_promise_meta := promise_meta, max_promise_sync := prom.log_sync }
    else st
  let st2 := { st1 with
    promises_meta := mapInsert sender (PromiseState.Promised promise_meta) st1.promises_meta }
  let num_promised := (mapValues st2.promises_meta).countP isPromised
  (st2, st2.quorum.is_prepare_quorum num_promised)

/-- Translation of `LeaderState::reset_promise`. -/
def LeaderState.reset_promise {S : Type} (st : LeaderState S) (pid : NodeId) : LeaderState S :=
  { st with promises_meta := mapInsert pid PromiseState.NotPromised st.promises_meta }

/-- Translation of `LeaderState::lost_promise`. -/
def LeaderState.lost_promise {S : Type} (st : LeaderState S) (pid : NodeId) : LeaderState S :=
  { st with promises_meta := mapInsert pid PromiseState.PromisedHigher st.promises_meta }

/-- Translation of `LeaderState::take_max_promise_sync` (`mem::take`). -/
def LeaderState.take_max_promise_sync {S : Type} (st : LeaderState S) :
    LeaderState S × Option S :=
  ({ st with max_promise_sync := none }, st.max_promise_sync)

/-- Translation of `LeaderState::get_max_promise_meta`. -/
def LeaderState.get_max_promise_meta {S : Type} (st : LeaderState S) : PromiseMetaData :=
  st.max_promise_meta

/-- Translation of `LeaderState::get_promise_meta`: the `panic!` branch for a
peer that is not `Promised` is modelled as `none`. -/
def LeaderState.get_promise_meta {S : Type} (st : LeaderState S) (pid : NodeId) :
    Option PromiseMetaData :=
  match mapLookup pid st.promises_meta with
  | some (PromiseState.Promised metadata) => some metadata
  | _ => none

/-- Translation of `LeaderState::get_decided_idx`: an ordinary `Option`. -/
def LeaderState.get_decided_idx {S : Type} (st : LeaderState S) (pid : NodeId) : Option Nat :=
  match mapLookup pid st.promises_meta with
  | some (PromiseState.Promised metadata) => some metadata.decided_idx
  | _ => none

/-- Translation of `LeaderState::reset_latest_accept_meta`. -/
def LeaderState.reset_latest_accept_meta {S : Type} (st : LeaderState S) : LeaderState S :=
  { st with latest_accept_meta := st.latest_accept_meta.map (fun kv => (kv.1, none)) }

/-- Translation of `LeaderState::set_latest_accept_meta`. -/
def LeaderState.set_latest_accept_meta {S : Type} (st : LeaderState S) (pid : NodeId)
    (idx : Option Nat) : LeaderState S :=
  { st with latest_accept_meta := mapInsert pid (idx.map (fun x => (st.n_leader, x))) st.latest_accept_meta }

/-- Translation of `LeaderState::set_accepted_idx`. -/
def LeaderState.set_accepted_idx {S : Type} (st : LeaderState S) (pid : NodeId) (idx : Nat) :
    LeaderState S :=
  { st with accepted_indexes := mapInsert pid idx st.accepted_indexes }

/-- Translation of `LeaderState::get_accepted_idx` (`unwrap_or(0)`). -/
def LeaderState.get_accepted_idx {S : Type} (st : LeaderState S) (pid : NodeId) : Nat :=
  (mapLookup pid st.accepted_indexes).getD 0

/-- Translation of `LeaderState::is_chosen`: counts peers whose recorded
accepted index is at least `idx` and asks the accept quorum. -/
def LeaderState.is_chosen {S : Type} (st : LeaderState S) (idx : Nat) : Bool :=
  let num_accepted := (mapValues st.accepted_indexes).countP (fun la => decide (idx ≤ la))
  st.quorum.is_accept_quorum num_accepted

/-- The mutating operations available on a `LeaderState` after construction,
used to reason about all call sequences within one leadership attempt. -/
inductive LOp (S : Type) where
  | set_promise (prom : Promise S) (sender : NodeId) (check_max_prom : Bool)
  | reset_promise (pid : NodeId)
  | lost_promise (pid : NodeId)
  | set_accepted_idx (pid : NodeId) (idx : Nat)
  | set_latest_accept_meta (pid : NodeId) (idx : Option Nat)
  | reset_latest_accept_meta
  | increment_seq_num_session (pid : NodeId)
  | next_seq_num (pid : NodeId)
  | take_max_promise_sync

/-- Effect of one mutating operation on the state (returned values dropped). -/
def LOp.apply {S : Type} : LOp S → LeaderState S → LeaderState S
  | LOp.set_promise prom sender c, st => (st.set_promise prom sender c).1
  | LOp.reset_promise pid, st => st.reset_promise pid
  | LOp.lost_promise pid, st => st.lost_promise pid
  | LOp.set_accepted_idx pid idx, st => st.set_accepted_idx pid idx
  | LOp.set_latest_accept_meta pid idx, st => st.set_latest_accept_meta pid idx
  | LOp.reset_latest_accept_meta, st => st.reset_latest_accept_meta
  | LOp.increment_seq_num_session pid, st => st.increment_seq_num_session pid
  | LOp.next_seq_num pid, st => (st.next_seq_num pid).1
  | LOp.take_max_promise_sync, st => st.take_max_promise_sync.1

/-- Translation of struct `LogicalClock`. -/
structure LogicalClock where
  time : Nat
  timeout : Nat
deriving DecidableEq

/-- Translation of `LogicalClock::with` (renamed: `with` is a Lean keyword). -/
def LogicalClock.make (timeout : Nat) : LogicalClock := { time := 0, timeout := timeout }

/-- Translation of `LogicalClock::tick_and_check_timeout`. -/
def LogicalClock.tick_and_check_timeout (c : LogicalClock) : LogicalClock × Bool :=
  let t := c.time + 1
  if t = c.timeout then ({ time := 0, timeout := c.timeout }, true)
  else ({ time := t, timeout := c.timeout }, false)

/-- State of a `LogicalClock` after `n` invocations of `tick_and_check_timeout`. -/
def LogicalClock.run (c : LogicalClock) : Nat → LogicalClock
  | 0 => c
  | n + 1 => (LogicalClock.run c n).tick_and_check_timeout.1

/-- Translation of struct `VecLike<T>` (utils/vec_like.rs); the inner
`HashMap<usize, T>` is the same association-list map model. -/
structure VecLike (T : Type) where
  default_value : T
  max_size : Nat
  data : List (Nat × T)

/-- Translation of `VecLike::new`. -/
def VecLike.new {T : Type} (default_value : T) (max_size : Nat) : VecLike T :=
  { default_value := default_value, max_size := max_size, data := [] }

/-- Translation of `VecLike::get`: `None` for an index at or beyond
`max_size`, otherwise the stored value or the default. -/
def VecLike.get {T : Type} (v : VecLike T) (index : Nat) : Option T :=
  if v.max_size ≤ index then none
  else some ((mapLookup index v.data).getD v.default_value)

/-- Translation of `impl Index for VecLike`: the out-of-bounds `panic!` is
modelled as `none`; in-bounds reads never fail. -/
def VecLike.index {T : Type} (v : VecLike T) (index : Nat) : Option T :=
  if v.max_size ≤ index then none
  else some ((mapLookup index v.data).getD v.default_value)

/-- Assignment `v[index] = x` through `impl IndexMut for VecLike`: the
out-of-bounds `panic!` is modelled as `none`. -/
def VecLike.index_set {T : Type} (v : VecLike T) (index : Nat) (x : T) : Option (VecLike T) :=
  if v.max_size ≤ index then none
  else some { v with data := mapInsert index x v.data }

/-- Runs a sequence of index assignments, propagating a panic as `none`. -/
def VecLike.applyWrites {T : Type} (v : VecLike T) : List (Nat × T) → Option (VecLike T)
  | [] => some v
  | (i, x) :: rest =>
      match v.index_set i x with
      | some v2 => VecLike.applyWrites v2 rest
      | none => none

/-- Number of peers currently recorded in `Promised` state, regardless of the
promise metadata carried (mirrors the filter-count inside `set_promise`). -/
def countPromised (m : NodeMap PromiseState) : Nat :=
  (mapValues m).countP isPromised

/-- Number of peers whose recorded accepted index is at least `idx` (mirrors
the filter-count inside `is_chosen`). -/
def acceptedCount {S : Type} (st : LeaderState S) (idx : Nat) : Nat :=
  (mapValues st.accepted_indexes).countP (fun la => decide (idx ≤ la))

/-! Helper lemmas about the association-list map model. -/

/-- Looking up the key just inserted yields the inserted value. -/
theorem mapLookup_insert_self {α : Type} (k : Nat) (v : α) (m : List (Nat × α)) :
    mapLookup k (mapInsert k v m) = some v := by
  induction m with
  | nil => simp [mapInsert, mapLookup]
  | cons hd tl ih =>
      obtain ⟨k2, v2⟩ := hd
      by_cases h : k = k2
      · simp [mapInsert, mapLookup, h]
      · simp [mapInsert, mapLookup, h, ih]

/-- Insertion does not disturb other keys. -/
theorem mapLookup_insert_ne {α : Type} (k k2 : Nat) (v : α) (m : List (Nat × α))
    (h : k ≠ k2) : mapLookup k (mapInsert k2 v m) = mapLookup k m := by
  induction m with
  | nil => simp [mapInsert, mapLookup, h]
  | cons hd tl ih =>
      obtain ⟨k3, v3⟩ := hd
      by_cases h2 : k2 = k3
      · subst h2
        simp [mapInsert, mapLookup, h]
      · by_cases h3 : k = k3 <;> simp [mapInsert, mapLookup, h2, h3, ih]

/-- Repeating an identical insertion is a no-op. -/
theorem mapInsert_idem {α : Type} (k : Nat) (v : α) (m : List (Nat × α)) :
    mapInsert k v (mapInsert k v m) = mapInsert k v m := by
  induction m with
  | nil => simp [mapInsert]
  | cons hd tl ih =>
      obtain ⟨k2, v2⟩ := hd
      by_cases h : k = k2 <;> simp [mapInsert, h, ih]

/-- Replacing (or adding) the value at one key cannot shrink the count of
values satisfying `p`, provided the new value satisfies `p` whenever the
replaced one did. -/
theorem countP_mapValues_insert_ge {α : Type} (p : α → Bool) (k : Nat) (v : α)
    (m : List (Nat × α))
    (h : ∀ o, mapLookup k m = some o → p o = true → p v = true) :
    (mapValues m).countP p ≤ (mapValues (mapInsert k v m)).countP p := by
  induction m with
  | nil => simp [mapInsert, mapValues]
  | cons hd tl ih =>
      obtain ⟨k2, v2⟩ := hd
      by_cases hk : k = k2
      · subst hk
        have hpv := h v2 (by simp [mapLookup])
        simp only [mapInsert, if_pos rfl, mapValues, List.map_cons, List.countP_cons]
        by_cases h2 : p v2 = true
        · simp [hpv h2, h2]
        · simp only [h2]
          by_cases h3 : p v = true <;> simp [h3]
      · have ihh := ih (fun o ho => h o (by simpa [mapLookup, hk] using ho))
        simp only [mapValues] at ihh ⊢
        simp only [mapInsert, if_neg (fun hc : k = k2 => hk hc), List.map_cons,
          List.countP_cons]
        omega

/-! Ballot-order facts (for the spec-modelled total order). -/

/-- The ballot order is irreflexive. -/
theorem Ballot.lt_irrefl (a : Ballot) : ¬ Ballot.lt a a := by
  simp [Ballot.lt]

/-- Two ballots neither of which is below the other are equal. -/
theorem Ballot.eq_of_not_lt (a b : Ballot) (h1 : ¬ Ballot.lt a b) (h2 : ¬ Ballot.lt b a) :
    a = b := by
  obtain ⟨an, ap⟩ := a
  obtain ⟨bn, bp⟩ := b
  simp only [Ballot.lt] at h1 h2
  simp only [Ballot.mk.injEq]
  omega

/-- Characterization of the strict "greater" on `PromiseMetaData`: ballot
dominates, accepted index breaks ties within the same ballot. -/
theorem PromiseMetaData.gt_iff (a b : PromiseMetaData) :
    PromiseMetaData.gt a b ↔
      Ballot.lt b.n_accepted a.n_accepted ∨
        (a.n_accepted = b.n_accepted ∧ b.accepted_idx < a.accepted_idx) := by
  unfold PromiseMetaData.gt PromiseMetaData.cmp
  split_ifs with h1 h2
  · obtain ⟨hn, hi, hp⟩ := h1
    rw [hn, hi]
    simp [Ballot.lt_irrefl]
  · simpa using h2
  · simpa using h2

/-- C5: `check_msg_status` classifies an incoming sequence number as
`Expected` iff it is the same session with counter exactly one larger, as
`Outdated` iff it is lexicographically at most the stored number, and as
`DroppedPreceding` in every other case. -/
theorem check_msg_status_c5 (sn inc : SequenceNumber) :
    (sn.check_msg_status inc = MessageStatus.Expected ↔
      inc.session = sn.session ∧ inc.counter = sn.counter + 1) ∧
    (sn.check_msg_status inc = MessageStatus.Outdated ↔ SequenceNumber.le inc sn) ∧
    (sn.check_msg_status inc = MessageStatus.DroppedPreceding ↔
      ¬(inc.session = sn.session ∧ inc.counter = sn.counter + 1) ∧
        ¬ SequenceNumber.le inc sn) := by
  unfold SequenceNumber.check_msg_status
  split_ifs with h1 h2 <;>
    simp only [SequenceNumber.le] at * <;>
    refine ⟨by simp_all, by simp_all, by simp_all⟩

/-- State invariant of the logical clock: after `n` ticks from a fresh clock
the counter equals `n % t` and the timeout is unchanged. -/
theorem logical_clock_run_time (t n : Nat) :
    ((LogicalClock.make t).run n).time = n % t ∧
    ((LogicalClock.make t).run n).timeout = t := by
  induction n with
  | zero => simp [LogicalClock.run, LogicalClock.make]
  | succ n ih =>
      obtain ⟨iht, ihto⟩ := ih
      have hmod : (n % t + 1) % t = (n + 1) % t := Nat.mod_add_mod n t 1
      simp only [LogicalClock.run, LogicalClock.tick_and_check_timeout, iht, ihto]
      split_ifs with h
      · refine ⟨?_, rfl⟩
        show (0 : Nat) = (n + 1) % t
        rw [← hmod, h, Nat.mod_self]
      · refine ⟨?_, rfl⟩
        show n % t + 1 = (n + 1) % t
        rcases Nat.eq_zero_or_pos t with ht | ht
        · subst ht
          simp [Nat.mod_zero]
        · have hlt : n % t < t := Nat.mod_lt _ ht
          rw [← hmod, Nat.mod_eq_of_lt (show n % t + 1 < t by omega)]

/-- C8: each invocation of `tick_and_check_timeout` advances the counter by
one and fires (returning true, resetting the counter to zero) exactly when
the counter reaches the timeout; consequently, starting from a fresh clock,
the n-th tick fires iff `n` is a positive multiple of the timeout. -/
theorem logical_clock_c8 (t n : Nat) (c : LogicalClock) :
    (c.tick_and_check_timeout.2 = true ↔ c.time + 1 = c.timeout) ∧
    (c.tick_and_check_timeout.1.time =
      if c.time + 1 = c.timeout then 0 else c.time + 1) ∧
    ((LogicalClock.make t).run n).time = n % t ∧
    (1 ≤ n →
      (((LogicalClock.make t).run (n - 1)).tick_and_check_timeout.2 = true ↔ n % t = 0)) := by
  refine ⟨?_, ?_, (logical_clock_run_time t n).1, ?_⟩
  · simp only [LogicalClock.tick_and_check_timeout]
    split_ifs with h <;> simp [h]
  · simp only [LogicalClock.tick_and_check_timeout]
    split_ifs with h <;> simp [h]
  · intro hn
    obtain ⟨ht, hto⟩ := logical_clock_run_time t (n - 1)
    have hmod : ((n - 1) % t + 1) % t = (n - 1 + 1) % t := Nat.mod_add_mod (n - 1) t 1
    rw [Nat.sub_add_cancel hn] at hmod
    simp only [LogicalClock.tick_and_check_timeout, ht, hto]
    split_ifs with h
    · constructor
      · intro _
        rw [← hmod, h, Nat.mod_self]
      · intro _
        rfl
    · constructor
      · intro hfalse
        simp at hfalse
      · intro hc
        exfalso
        rcases Nat.eq_zero_or_pos t with ht0 | ht0
        · subst ht0
          rw [Nat.mod_zero] at hc
          omega
        · have hlt : (n - 1) % t < t := Nat.mod_lt _ ht0
          rw [← hmod] at hc
          rw [Nat.mod_eq_of_lt (show (n - 1) % t + 1 < t by omega)] at hc
          omega

/-- C8 witness: for timeout 3 the first and second ticks do not fire and the
third fires, with the counter following n mod 3. -/
theorem logical_clock_c8_witness :
    (((LogicalClock.make 3).run 2).tick_and_check_timeout.2 = true ↔ 3 % 3 = 0) ∧
    (((LogicalClock.make 3).run 0).tick_and_check_timeout.2 = true ↔ 1 % 3 = 0) ∧
    (((LogicalClock.make 3).run 1).tick_and_check_timeout.2 = true ↔ 2 % 3 = 0) ∧
    ((LogicalClock.make 3).run 3).time = 3 % 3 :=
  ⟨(logical_clock_c8 3 3 (LogicalClock.make 3)).2.2.2 (by omega),
   (logical_clock_c8 3 1 (LogicalClock.make 3)).2.2.2 (by omega),
   (logical_clock_c8 3 2 (LogicalClock.make 3)).2.2.2 (by omega),
   (logical_clock_c8 3 3 (LogicalClock.make 3)).2.2.1⟩

/-- C3: the `PartialOrd`/`PartialEq` implementation on `PromiseMetaData` is a
strict weak order (transitive, asymmetric, with transitive incomparability);
equality holds iff `n_accepted`, `accepted_idx` and `pid` all match, and
strict dominance holds iff the ballot is greater or the ballot ties and the
accepted index is greater. -/
theorem promise_metadata_order_c3 (a b c : PromiseMetaData) :
    (PromiseMetaData.gt a b → PromiseMetaData.gt b c → PromiseMetaData.gt a c) ∧
    (PromiseMetaData.gt a b → ¬ PromiseMetaData.gt b a) ∧
    ((¬ PromiseMetaData.gt a b ∧ ¬ PromiseMetaData.gt b a) →
      (¬ PromiseMetaData.gt b c ∧ ¬ PromiseMetaData.gt c b) →
      (¬ PromiseMetaData.gt a c ∧ ¬ PromiseMetaData.gt c a)) ∧
    (PromiseMetaData.eq a b ↔
      a.n_accepted = b.n_accepted ∧ a.accepted_idx = b.accepted_idx ∧ a.pid = b.pid) ∧
    (PromiseMetaData.gt a b ↔
      Ballot.lt b.n_accepted a.n_accepted ∨
        (a.n_accepted = b.n_accepted ∧ b.accepted_idx < a.accepted_idx)) := by
  obtain ⟨⟨an, ap⟩, ai, ad, aq⟩ := a
  obtain ⟨⟨bn, bp⟩, bi, bd, bq⟩ := b
  obtain ⟨⟨cn, cp⟩, ci, cd, cq⟩ := c
  refine ⟨?_, ?_, ?_, Iff.rfl, PromiseMetaData.gt_iff _ _⟩ <;>
    simp only [PromiseMetaData.gt_iff, Ballot.lt, Ballot.mk.injEq] <;>
    omega

/-- C3 witness: with a ballot-dominant first element, transitivity applies at
concrete metadata values. -/
theorem promise_metadata_order_c3_witness :
    PromiseMetaData.gt
      { n_accepted := { n := 2, pid := 1 }, accepted_idx := 5, decided_idx := 0, pid := 1 }
      { n_accepted := { n := 1, pid := 1 }, accepted_idx := 3, decided_idx := 0, pid := 3 } :=
  (promise_metadata_order_c3
      { n_accepted := { n := 2, pid := 1 }, accepted_idx := 5, decided_idx := 0, pid := 1 }
      { n_accepted := { n := 1, pid := 1 }, accepted_idx := 7, decided_idx := 0, pid := 2 }
      { n_accepted := { n := 1, pid := 1 }, accepted_idx := 3, decided_idx := 0, pid := 3 }).1
    (by decide) (by decide)

/-- Accept-quorum decisions are monotone in the acknowledger count. -/
theorem Quorum.accept_mono (q : Quorum) {m n : Nat} (h : m ≤ n)
    (hq : q.is_accept_quorum m = true) : q.is_accept_quorum n = true := by
  cases q <;> simp [Quorum.is_accept_quorum] at hq ⊢ <;> omega

/-- The promise map after `set_promise` records the sender as `Promised`
with the metadata built from the incoming promise. -/
theorem set_promise_fst_promises_meta {S : Type} (st : LeaderState S) (prom : Promise S)
    (sender : Nat) (check_max_prom : Bool) :
    (st.set_promise prom sender check_max_prom).1.promises_meta =
      mapInsert sender (PromiseState.Promised (promiseMetaOf prom sender)) st.promises_meta := by
  simp only [LeaderState.set_promise]
  split_ifs <;> rfl

/-- Incrementing a session number leaves the promise map untouched. -/
theorem increment_promises_meta {S : Type} (st : LeaderState S) (pid : Nat) :
    (st.increment_seq_num_session pid).promises_meta = st.promises_meta := by
  unfold LeaderState.increment_seq_num_session
  cases mapLookup pid st.follower_seq_nums <;> rfl

/-- Advancing a sequence number leaves the promise map untouched. -/
theorem next_seq_num_promises_meta {S : Type} (st : LeaderState S) (pid : Nat) :
    (st.next_seq_num pid).1.promises_meta = st.promises_meta := by
  unfold LeaderState.next_seq_num
  cases mapLookup pid st.follower_seq_nums <;> rfl

/-- C1: `set_promise` reports a prepare quorum exactly when the number of
peers recorded as `Promised` after inserting the sender's promise (counted
regardless of metadata) reaches the majority threshold for `Majority`
quorums, respectively the read-quorum size for `Flexible` quorums. -/
theorem set_promise_quorum_c1 {S : Type} (st : LeaderState S) (prom : Promise S)
    (sender : Nat) (check_max_prom : Bool) :
    (st.set_promise prom sender check_max_prom).2 = true ↔
      (match st.quorum with
       | Quorum.Majority majority =>
           majority ≤ countPromised
             (mapInsert sender (PromiseState.Promised (promiseMetaOf prom sender))
               st.promises_meta)
       | Quorum.Flexible flex_quorum =>
           flex_quorum.read_quorum_size ≤ countPromised
             (mapInsert sender (PromiseState.Promised (promiseMetaOf prom sender))
               st.promises_meta)) := by
  simp only [LeaderState.set_promise, countPromised]
  split_ifs with h <;> cases hq : st.quorum <;> simp [Quorum.is_prepare_quorum, hq]

/-- C2: `is_chosen idx` holds exactly when the count of peers with recorded
accepted index at least `idx` satisfies the accept quorum; it is preserved
by any `set_accepted_idx` call that does not lower the peer's recorded
index; and repeating an identical `set_accepted_idx` leaves it unchanged. -/
theorem is_chosen_c2 {S : Type} (st : LeaderState S) (idx pid a : Nat) :
    (st.is_chosen idx = true ↔
      (match st.quorum with
       | Quorum.Majority majority => majority ≤ acceptedCount st idx
       | Quorum.Flexible flex_quorum => flex_quorum.write_quorum_size ≤ acceptedCount st idx)) ∧
    (st.get_accepted_idx pid ≤ a → st.is_chosen idx = true →
      (st.set_accepted_idx pid a).is_chosen idx = true) ∧
    ((st.set_accepted_idx pid a).set_accepted_idx pid a).is_chosen idx =
      (st.set_accepted_idx pid a).is_chosen idx := by
  refine ⟨?_, ?_, ?_⟩
  · simp only [LeaderState.is_chosen, acceptedCount]
    cases hq : st.quorum <;> simp [Quorum.is_accept_quorum, hq]
  · intro ha hc
    have hcount : (mapValues st.accepted_indexes).countP (fun la => decide (idx ≤ la)) ≤
        (mapValues (mapInsert pid a st.accepted_indexes)).countP (fun la => decide (idx ≤ la)) := by
      apply countP_mapValues_insert_ge
      intro o ho hpo
      have hoa : st.get_accepted_idx pid = o := by
        simp [LeaderState.get_accepted_idx, ho]
      rw [hoa] at ha
      simp only [decide_eq_true_eq] at hpo ⊢
      omega
    simp only [LeaderState.is_chosen, LeaderState.set_accepted_idx] at hc ⊢
    exact Quorum.accept_mono st.quorum hcount hc
  · simp only [LeaderState.set_accepted_idx, mapInsert_idem]

/-- C2 witness: in a three-node majority-2 cluster where peers 1 and 2 have
acknowledged index 100, index 100 is chosen and remains chosen after peer 3
also acknowledges it. -/
theorem is_chosen_c2_witness :
    ((((LeaderState.make { n := 1, pid := 1 } [1, 2, 3]
          (Quorum.Majority 2) : LeaderState Nat).set_accepted_idx 1 100).set_accepted_idx
        2 100).set_accepted_idx 3 100).is_chosen 100 = true :=
  (is_chosen_c2
      (((LeaderState.make { n := 1, pid := 1 } [1, 2, 3]
          (Quorum.Majority 2) : LeaderState Nat).set_accepted_idx 1 100).set_accepted_idx 2 100)
      100 3 100).2.1 (by decide) (by decide)

/-- C6: with `check_max_prom = true` the maximum promise metadata never
decreases (it stays equal or strictly increases in the `PromiseMetaData`
order), and a promise that does not strictly exceed the current maximum
leaves the held `max_promise_sync` unchanged. -/
theorem set_promise_max_c6 {S : Type} (st : LeaderState S) (prom : Promise S)
    (sender : Nat) (check_max_prom : Bool) :
    ((st.set_promise prom sender true).1.max_promise_meta = st.max_promise_meta ∨
      PromiseMetaData.gt (st.set_promise prom sender true).1.max_promise_meta
        st.max_promise_meta) ∧
    (¬ PromiseMetaData.gt (promiseMetaOf prom sender) st.max_promise_meta →
      (st.set_promise prom sender check_max_prom).1.max_promise_sync = st.max_promise_sync) := by
  constructor
  · simp only [LeaderState.set_promise]
    split_ifs with h
    · right
      simpa using h.2
    · left
      rfl
  · intro hngt
    simp only [LeaderState.set_promise]
    split_ifs with h
    · exact absurd h.2 hngt
    · rfl

/-- C6 witness: a promise whose metadata does not exceed the default maximum
leaves the (empty) sync payload in place. -/
theorem set_promise_max_c6_witness :
    ((LeaderState.make { n := 1, pid := 1 } [2, 3]
        (Quorum.Majority 2) : LeaderState Nat).set_promise
      { n_accepted := { n := 0, pid := 0 }, accepted_idx := 0, decided_idx := 0,
        log_sync := some 7 } 2 false).1.max_promise_sync =
      (LeaderState.make { n := 1, pid := 1 } [2, 3]
        (Quorum.Majority 2) : LeaderState Nat).max_promise_sync :=
  (set_promise_max_c6
      (LeaderState.make { n := 1, pid := 1 } [2, 3] (Quorum.Majority 2) : LeaderState Nat)
      { n_accepted := { n := 0, pid := 0 }, accepted_idx := 0, decided_idx := 0,
        log_sync := some 7 } 2 false).2 (by decide)

/-- C7: `get_promise_meta` yields the stored metadata exactly for a peer in
`Promised` state and fails (modelled `none`, the panic) in every other
state, while `get_decided_idx` represents the same absence as an ordinary
`none` value and otherwise returns the promised `decided_idx`. -/
theorem get_promise_meta_c7 {S : Type} (st : LeaderState S) (pid : Nat) :
    (∀ m, st.get_promise_meta pid = some m ↔
        mapLookup pid st.promises_meta = some (PromiseState.Promised m)) ∧
    (st.get_promise_meta pid = none ↔
        ¬ ∃ m, mapLookup pid st.promises_meta = some (PromiseState.Promised m)) ∧
    (st.get_decided_idx pid = none ↔ st.get_promise_meta pid = none) ∧
    (∀ m, st.get_promise_meta pid = some m → st.get_decided_idx pid = some m.decided_idx) := by
  unfold LeaderState.get_promise_meta LeaderState.get_decided_idx
  cases hl : mapLookup pid st.promises_meta with
  | none => simp
  | some ps =>
      cases ps with
      | NotPromised => simp
      | PromisedHigher => simp
      | Promised m0 => refine ⟨?_, ?_, ?_, ?_⟩ <;> simp

/-- C7 witness: after peer 2's promise is recorded, `get_decided_idx`
returns that promise's decided index. -/
theorem get_promise_meta_c7_witness :
    (((LeaderState.make { n := 1, pid := 1 } [2, 3]
          (Quorum.Majority 2) : LeaderState Nat).set_promise
        { n_accepted := { n := 0, pid := 0 }, accepted_idx := 0, decided_idx := 4,
          log_sync := none } 2 true).1).get_decided_idx 2 =
      some ({ n_accepted := { n := 0, pid := 0 }, accepted_idx := 0, decided_idx := 4,
              pid := 2 } : PromiseMetaData).decided_idx :=
  (get_promise_meta_c7
      (((LeaderState.make { n := 1, pid := 1 } [2, 3]
          (Quorum.Majority 2) : LeaderState Nat).set_promise
        { n_accepted := { n := 0, pid := 0 }, accepted_idx := 0, decided_idx := 4,
          log_sync := none } 2 true).1) 2).2.2.2
    { n_accepted := { n := 0, pid := 0 }, accepted_idx := 0, decided_idx := 4, pid := 2 }
    (by decide)

/-- C10: for a pid absent from the follower sequence-number map,
`next_seq_num` does not fail: it returns session 0 and counter 1 and inserts
that entry, while `get_seq_num` returns the default (session 0, counter 0). -/
theorem next_seq_num_c10 {S : Type} (st : LeaderState S) (pid : Nat)
    (h : mapLookup pid st.follower_seq_nums = none) :
    (st.next_seq_num pid).2 = { session := 0, counter := 1 } ∧
    mapLookup pid (st.next_seq_num pid).1.follower_seq_nums =
      some { session := 0, counter := 1 } ∧
    st.get_seq_num pid = { session := 0, counter := 0 } := by
  unfold LeaderState.next_seq_num LeaderState.get_seq_num
  rw [h]
  simp [mapLookup_insert_self, SequenceNumber.default0]

/-- C10 witness: with an empty peer list, pid 5 has no entry, `next_seq_num`
returns (0, 1), and `get_seq_num` returns (0, 0). -/
theorem next_seq_num_c10_witness :
    ((LeaderState.make { n := 1, pid := 1 } []
        (Quorum.Majority 1) : LeaderState Nat).next_seq_num 5).2 =
      { session := 0, counter := 1 } ∧
    mapLookup 5 ((LeaderState.make { n := 1, pid := 1 } []
        (Quorum.Majority 1) : LeaderState Nat).next_seq_num 5).1.follower_seq_nums =
      some { session := 0, counter := 1 } ∧
    (LeaderState.make { n := 1, pid := 1 } []
        (Quorum.Majority 1) : LeaderState Nat).get_seq_num 5 =
      { session := 0, counter := 0 } :=
  next_seq_num_c10
    (LeaderState.make { n := 1, pid := 1 } [] (Quorum.Majority 1) : LeaderState Nat) 5 rfl

/-- C4 counterexample: within a single leadership attempt (no `reset_promise`
involved), peer 2 goes from `Promised` to `PromisedHigher` via
`lost_promise`, and back from `PromisedHigher` to `Promised` via a second
`set_promise` — refuting the claim that a peer in `Promised` never becomes
`PromisedHigher` and a peer in `PromisedHigher` never becomes `Promised`. -/
theorem promise_state_c4_counterexample :
    (mapLookup 2
        (((LeaderState.make { n := 1, pid := 1 } [2, 3]
            (Quorum.Majority 2) : LeaderState Nat).set_promise
          { n_accepted := { n := 0, pid := 0 }, accepted_idx := 0, decided_idx := 0,
            log_sync := none } 2 true).1.promises_meta) =
      some (PromiseState.Promised
        { n_accepted := { n := 0, pid := 0 }, accepted_idx := 0, decided_idx := 0,
          pid := 2 })) ∧
    (mapLookup 2
        ((((LeaderState.make { n := 1, pid := 1 } [2, 3]
            (Quorum.Majority 2) : LeaderState Nat).set_promise
          { n_accepted := { n := 0, pid := 0 }, accepted_idx := 0, decided_idx := 0,
            log_sync := none } 2 true).1.lost_promise 2).promises_meta) =
      some PromiseState.PromisedHigher) ∧
    (mapLookup 2
        (((((LeaderState.make { n := 1, pid := 1 } [2, 3]
            (Quorum.Majority 2) : LeaderState Nat).set_promise
          { n_accepted := { n := 0, pid := 0 }, accepted_idx := 0, decided_idx := 0,
            log_sync := none } 2 true).1.lost_promise 2).set_promise
          { n_accepted := { n := 0, pid := 0 }, accepted_idx := 0, decided_idx := 0,
            log_sync := none } 2 true).1.promises_meta) =
      some (PromiseState.Promised
        { n_accepted := { n := 0, pid := 0 }, accepted_idx := 0, decided_idx := 0,
          pid := 2 })) := by
  refine ⟨by decide, by decide, by decide⟩

/-- C4 (amended): `set_promise` records its sender as `Promised` and
`lost_promise` records its target as `PromisedHigher` regardless of the
prior state (so backward transitions out of `Promised` and out of
`PromisedHigher` do occur), while `reset_promise` is the only operation
that moves a peer into `NotPromised`. -/
theorem promise_state_c4_amended {S : Type} (op : LOp S) (st : LeaderState S) (pid : Nat) :
    (∀ (prom : Promise S) (check_max_prom : Bool),
        mapLookup pid ((LOp.set_promise prom pid check_max_prom).apply st).promises_meta =
          some (PromiseState.Promised (promiseMetaOf prom pid))) ∧
    (mapLookup pid ((LOp.lost_promise pid : LOp S).apply st).promises_meta =
        some PromiseState.PromisedHigher) ∧
    (mapLookup pid ((LOp.reset_promise pid : LOp S).apply st).promises_meta =
        some PromiseState.NotPromised) ∧
    (mapLookup pid (op.apply st).promises_meta = some PromiseState.NotPromised →
      mapLookup pid st.promises_meta = some PromiseState.NotPromised ∨
        op = LOp.reset_promise pid) := by
  refine ⟨?_, ?_, ?_, ?_⟩
  · intro prom check_max_prom
    simp [LOp.apply, set_promise_fst_promises_meta, mapLookup_insert_self]
  · simp [LOp.apply, LeaderState.lost_promise, mapLookup_insert_self]
  · simp [LOp.apply, LeaderState.reset_promise, mapLookup_insert_self]
  · intro h
    cases op with
    | set_promise prom sender check_max_prom =>
        simp only [LOp.apply, set_promise_fst_promises_meta] at h
        by_cases hps : pid = sender
        · subst hps
          rw [mapLookup_insert_self] at h
          exact absurd h (by simp)
        · rw [mapLookup_insert_ne _ _ _ _ hps] at h
          exact Or.inl h
    | reset_promise p =>
        by_cases hps : pid = p
        · subst hps
          exact Or.inr rfl
        · simp only [LOp.apply, LeaderState.reset_promise] at h
          rw [mapLookup_insert_ne _ _ _ _ hps] at h
          exact Or.inl h
    | lost_promise p =>
        simp only [LOp.apply, LeaderState.lost_promise] at h
        by_cases hps : pid = p
        · subst hps
          rw [mapLookup_insert_self] at h
          exact absurd h (by simp)
        · rw [mapLookup_insert_ne _ _ _ _ hps] at h
          exact Or.inl h
    | set_accepted_idx p i =>
        exact Or.inl (by simpa [LOp.apply, LeaderState.set_accepted_idx] using h)
    | set_latest_accept_meta p i =>
        exact Or.inl (by simpa [LOp.apply, LeaderState.set_latest_accept_meta] using h)
    | reset_latest_accept_meta =>
        exact Or.inl (by simpa [LOp.apply, LeaderState.reset_latest_accept_meta] using h)
    | increment_seq_num_session p =>
        exact Or.inl (by simpa [LOp.apply, increment_promises_meta] using h)
    | next_seq_num p =>
        exact Or.inl (by simpa [LOp.apply, next_seq_num_promises_meta] using h)
    | take_max_promise_sync =>
        exact Or.inl (by simpa [LOp.apply, LeaderState.take_max_promise_sync] using h)

/-- C4 witness: applying `set_accepted_idx` to a fresh state leaves the
still-`NotPromised` peer 2 in `NotPromised` (the left disjunct). -/
theorem promise_state_c4_amended_witness :
    mapLookup 2 (LeaderState.make { n := 1, pid := 1 } [2, 3]
        (Quorum.Majority 2) : LeaderState Nat).promises_meta =
      some PromiseState.NotPromised ∨
    (LOp.set_accepted_idx 2 5 : LOp Nat) = LOp.reset_promise 2 :=
  (promise_state_c4_amended (LOp.set_accepted_idx 2 5 : LOp Nat)
      (LeaderState.make { n := 1, pid := 1 } [2, 3] (Quorum.Majority 2) : LeaderState Nat)
      2).2.2.2 (by decide)

/-- Writes through the indexing operator never disturb an untouched index,
nor the default value or declared bound. -/
theorem applyWrites_untouched {T : Type} (i : Nat) :
    ∀ (ws : List (Nat × T)) (v v2 : VecLike T),
      i ∉ ws.map Prod.fst → VecLike.applyWrites v ws = some v2 →
      mapLookup i v2.data = mapLookup i v.data ∧
        v2.default_value = v.default_value ∧ v2.max_size = v.max_size := by
  intro ws
  induction ws with
  | nil =>
      intro v v2 _ happ
      simp only [VecLike.applyWrites] at happ
      obtain rfl := Option.some.inj happ
      exact ⟨rfl, rfl, rfl⟩
  | cons hd tl ih =>
      intro v v2 hni happ
      obtain ⟨j, x⟩ := hd
      simp only [List.map_cons, List.mem_cons] at hni
      push_neg at hni
      obtain ⟨hij, hitl⟩ := hni
      simp only [VecLike.applyWrites] at happ
      cases hset : v.index_set j x with
      | none =>
          rw [hset] at happ
          simp at happ
      | some v3 =>
          rw [hset] at happ
          simp only at happ
          have hv3 := ih v3 v2 hitl happ
          unfold VecLike.index_set at hset
          split_ifs at hset with hb
          obtain rfl := Option.some.inj hset
          refine ⟨?_, hv3.2.1, hv3.2.2⟩
          rw [hv3.1]
          exact mapLookup_insert_ne i j x v.data hij

/-- C9: a `VecLike` index below the bound that was never assigned reads as
the default value (through both `get` and the indexing operator), while any
index at or beyond the bound fails (the modelled panic) through both the
read and write indexing operators. -/
theorem vec_like_c9 {T : Type} (d : T) (msize : Nat) (ws : List (Nat × T)) (i : Nat)
    (v : VecLike T) (x : T) :
    (i < msize → i ∉ ws.map Prod.fst →
      ∀ v2, (VecLike.new d msize).applyWrites ws = some v2 →
        v2.get i = some d ∧ v2.index i = some d) ∧
    (v.max_size ≤ i → v.index i = none ∧ v.index_set i x = none) := by
  constructor
  · intro hi hni v2 happ
    obtain ⟨hl, hdef, hm⟩ := applyWrites_untouched i ws (VecLike.new d msize) v2 hni happ
    have hl0 : mapLookup i v2.data = none := by
      rw [hl]
      rfl
    have hdef0 : v2.default_value = d := hdef
    have hm0 : v2.max_size = msize := hm
    unfold VecLike.get VecLike.index
    rw [hl0, hdef0, hm0]
    simp [Nat.not_le.mpr hi]
  · intro hle
    unfold VecLike.index VecLike.index_set
    simp [hle]

/-- C9 witness: with default 0 and bound 3, after writing indices 0 and 2
the untouched index 1 reads as the default through `get` and `index`, and
index 5 fails through the indexing operator. -/
theorem vec_like_c9_witness :
    ((VecLike.new (0 : Nat) 3).applyWrites [(0, 5), (2, 7)] =
        some { default_value := 0, max_size := 3, data := [(0, 5), (2, 7)] }) ∧
    ({ default_value := 0, max_size := 3, data := [(0, 5), (2, 7)] } : VecLike Nat).get 1 =
        some 0 ∧
    ({ default_value := 0, max_size := 3, data := [(0, 5), (2, 7)] } : VecLike Nat).index 1 =
        some 0 ∧
    ({ default_value := 0, max_size := 3, data := [(0, 5), (2, 7)] } : VecLike Nat).index 5 =
        none :=
  ⟨rfl,
   ((vec_like_c9 0 3 [(0, 5), (2, 7)] 1
        { default_value := 0, max_size := 3, data := [(0, 5), (2, 7)] } 0).1
      (by decide) (by decide)
      { default_value := 0, max_size := 3, data := [(0, 5), (2, 7)] } rfl).1,
   ((vec_like_c9 0 3 [(0, 5), (2, 7)] 1
        { default_value := 0, max_size := 3, data := [(0, 5), (2, 7)] } 0).1
      (by decide) (by decide)
      { default_value := 0, max_size := 3, data := [(0, 5), (2, 7)] } rfl).2,
   ((vec_like_c9 0 3 [(0, 5), (2, 7)] 5
        { default_value := 0, max_size := 3, data := [(0, 5), (2, 7)] } 0).2 (by decide)).1⟩
